import Mathlib

/-!
A shallow embedding of the outbound-dispatch subsystem of `src/server.js`
(WhatsApp bulk-messaging service), together with theorems settling the
specification claims about it.

Strings are modelled as `List Char` where character-level reasoning is
needed (phone normalization, date-pattern matching) and as Lean `String`
elsewhere.  JavaScript truthiness on optional string/number fields is
modelled explicitly (`truthyS`, `truthyN`, `jsOrS`, `jsOrN`).
-/

namespace WhatsappService

/-! ## PhoneNormalizer (`formatPhoneNumber`, server.js lines 76-82)

```js
const formatPhoneNumber = (phone) => {
  const digits = phone.replace(/\D/g, '');
  if (digits.startsWith('91') && digits.length === 12) return digits;
  if (digits.length === 10) return '91' + digits;
  if (digits.length >= 10) return '91' + digits.slice(-10);
  return digits;
};
```
`phone.replace(/\D/g, '')` keeps exactly the ASCII digits `0`-`9`
(`Char.isDigit`); `digits.slice(-10)` is the last 10 characters, i.e.
`digits.drop (digits.length - 10)` when `digits.length ≥ 10`.  The
function is total: no exception can be raised. -/

def formatPhoneNumber (phone : List Char) : List Char :=
  let digits := phone.filter Char.isDigit
  if digits.take 2 = ['9', '1'] ∧ digits.length = 12 then digits
  else if digits.length = 10 then '9' :: '1' :: digits
  else if digits.length ≥ 10 then '9' :: '1' :: digits.drop (digits.length - 10)
  else digits

/-- The five-step normalization rule, written following the wording of the
spec (§4.1) rather than the code, to be compared with `formatPhoneNumber`:
1. strip all non-digit characters; 2. if the result starts with "91" and has
length exactly 12, return as-is; 3. else if length is exactly 10, prepend
"91"; 4. else if length ≥ 10, prepend "91" to the last 10 digits; 5. else
return the stripped digits unchanged. -/
def normalizeSpec (raw : List Char) : List Char :=
  let stripped := raw.filter Char.isDigit
  if stripped.take 2 = ['9', '1'] ∧ stripped.length = 12 then stripped
  else if stripped.length = 10 then ['9', '1'] ++ stripped
  else if stripped.length ≥ 10 then ['9', '1'] ++ stripped.drop (stripped.length - 10)
  else stripped

lemma filter_isDigit_of_all_digits {l : List Char} (h : ∀ c ∈ l, c.isDigit = true) :
    l.filter Char.isDigit = l :=
  List.filter_eq_self.mpr h

lemma formatPhoneNumber_all_digits (phone : List Char) :
    ∀ c ∈ formatPhoneNumber phone, c.isDigit = true := by
  intro c hc
  unfold formatPhoneNumber at hc
  dsimp only at hc
  have hd : ∀ a ∈ phone.filter Char.isDigit, a.isDigit = true := by
    intro a ha
    exact List.of_mem_filter ha
  split at hc
  · exact hd c hc
  · split at hc
    · simp only [List.mem_cons] at hc
      rcases hc with hc | hc | hc
      · simp [hc]
      · simp [hc]
      · exact hd c hc
    · split at hc
      · simp only [List.mem_cons] at hc
        rcases hc with hc | hc | hc
        · simp [hc]
        · simp [hc]
        · exact hd c (List.mem_of_mem_drop hc)
      · exact hd c hc

lemma formatPhoneNumber_of_prefix_len12 {l : List Char}
    (h1 : l.filter Char.isDigit = l)
    (h2 : l.take 2 = ['9', '1'] ∧ l.length = 12) :
    formatPhoneNumber l = l := by
  unfold formatPhoneNumber
  dsimp only
  rw [h1, if_pos h2]

lemma formatPhoneNumber_short {l : List Char}
    (h1 : l.filter Char.isDigit = l) (h2 : l.length < 10) :
    formatPhoneNumber l = l := by
  unfold formatPhoneNumber
  dsimp only
  rw [h1]
  have c1 : ¬(l.take 2 = ['9', '1'] ∧ l.length = 12) := fun h => by omega
  have c2 : ¬(l.length = 10) := by omega
  have c3 : ¬(l.length ≥ 10) := by omega
  rw [if_neg c1, if_neg c2, if_neg c3]

/-- Every output of `formatPhoneNumber` either is a 12-character string
starting with "91", or is shorter than 10 characters. -/
lemma formatPhoneNumber_shape (x : List Char) :
    ((formatPhoneNumber x).take 2 = ['9', '1'] ∧ (formatPhoneNumber x).length = 12) ∨
      (formatPhoneNumber x).length < 10 := by
  unfold formatPhoneNumber
  dsimp only
  split
  · next h => exact Or.inl h
  · split
    · next h => exact Or.inl ⟨rfl, by simp [h]⟩
    · split
      · next h => exact Or.inl ⟨rfl, by simp [List.length_drop]; omega⟩
      · next h1 h2 h3 => exact Or.inr (by omega)

/-- C9: `formatPhoneNumber` is idempotent on every input string, not only
on the 12-digit "91"-prefixed ones named by the spec: its output is always
either a 12-character digit string starting "91" (fixed by rule 2) or a
digit string of fewer than 10 characters (fixed by rule 5). -/
theorem formatPhoneNumber_idempotent (x : List Char) :
    formatPhoneNumber (formatPhoneNumber x) = formatPhoneNumber x := by
  have hfix : (formatPhoneNumber x).filter Char.isDigit = formatPhoneNumber x :=
    filter_isDigit_of_all_digits (formatPhoneNumber_all_digits x)
  rcases formatPhoneNumber_shape x with h | h
  · exact formatPhoneNumber_of_prefix_len12 hfix h
  · exact formatPhoneNumber_short hfix h

/-- C4: `formatPhoneNumber` implements exactly the five-step normalization
rule of the spec (`normalizeSpec`), and in particular maps every 10-digit
input `d` to `"91" ++ d`.  Totality in Lean reflects that the JS function
raises no exception on string inputs. -/
theorem formatPhoneNumber_matches_spec :
    (∀ x : List Char, formatPhoneNumber x = normalizeSpec x) ∧
      (∀ d : List Char, (∀ c ∈ d, c.isDigit = true) → d.length = 10 →
        formatPhoneNumber d = '9' :: '1' :: d) := by
  constructor
  · intro x
    rfl
  · intro d hd h10
    unfold formatPhoneNumber
    dsimp only
    rw [filter_isDigit_of_all_digits hd]
    have c1 : ¬(d.take 2 = ['9', '1'] ∧ d.length = 12) := fun h => by omega
    rw [if_neg c1, if_pos h10]

/-- Witness for C4 at the spec's own scenario input: the 10-digit string
"9876543210" normalizes to "919876543210". -/
theorem formatPhoneNumber_matches_spec_witness :
    formatPhoneNumber ['9', '8', '7', '6', '5', '4', '3', '2', '1', '0'] =
      ['9', '1', '9', '8', '7', '6', '5', '4', '3', '2', '1', '0'] :=
  formatPhoneNumber_matches_spec.2 _ (by decide) (by decide)

/-! ## NotificationTemplater (server.js lines 430-550)

JavaScript truthiness on the optional fields read by the templaters:
a missing field (`undefined`) and the empty string are falsy; for numbers,
`0` is falsy.  `a || b` yields `a` when truthy, else `b`. -/

def truthyS : Option String → Bool
  | none => false
  | some s => !s.isEmpty

def jsOrS (a b : Option String) : Option String :=
  if truthyS a then a else b

def truthyN : Option Int → Bool
  | none => false
  | some v => decide (v ≠ 0)

def jsOrN (a b : Option Int) : Option Int :=
  if truthyN a then a else b

def gtOneN : Option Int → Bool
  | none => false
  | some v => decide (1 < v)

def gtZeroN : Option Int → Bool
  | none => false
  | some v => decide (0 < v)

/-- Rendering of a number field inside a JS template literal: a present
value prints in decimal, a missing one prints as "undefined". -/
def intDisplay : Option Int → String
  | none => "undefined"
  | some v => toString v

/-- The host JavaScript `Date` machinery, an external collaborator of the
templaters: `parse s` models `new Date(s).getTime()`, returning `none`
when the result is `NaN` (invalid date); `toLocale t` models
`date.toLocaleDateString('en-IN', {weekday, year, month, day})`, which in
principle may throw — modelled with `Except`; the code catches a throw. -/
structure DateHost where
  parse : String → Option Int
  toLocale : Int → Except String String

/-- The regex `/^\d{4}-\d{2}-\d{2}$/` from lines 440 and 501: a bare
`YYYY-MM-DD` calendar string. -/
def isBareDate : List Char → Bool
  | [y1, y2, y3, y4, h1, m1, m2, h2, d1, d2] =>
    y1.isDigit && y2.isDigit && y3.isDigit && y4.isDigit && (h1 == '-') &&
      m1.isDigit && m2.isDigit && (h2 == '-') && d1.isDigit && d2.isDigit
  | _ => false

/-- The `formatDate` closure, defined identically inside
`formatEventMessage` (lines 431-461) and `formatTaskMessage`
(lines 492-522); modelled once.  Input `none` stands for JS
`null`/`undefined`.  A bare `YYYY-MM-DD` string gets `"T00:00:00"`
appended before parsing, which ECMA-262 interprets at local midnight. -/
def formatDate (host : DateHost) : Option String → String
  | none => "Date not specified"
  | some s =>
    if s = "" ∨ s = "undefined" ∨ s = "null" then "Date not specified"
    else
      match (if isBareDate s.toList then host.parse (s ++ "T00:00:00") else host.parse s) with
      | none => "Invalid date"
      | some t =>
        match host.toLocale t with
        | Except.ok out => out
        | Except.error _ => "Date formatting error"

structure Staff where
  full_name : String
  role : Option String
  mobile_number : String
deriving DecidableEq, Repr

structure Event where
  title : Option String
  role : Option String
  eventType : Option String
  event_type : Option String
  eventDate : Option String
  event_date : Option String
  venue : Option String
  clientName : Option String
  client_name : Option String
  totalDays : Option Int
  total_days : Option Int
  description : Option String
deriving DecidableEq, Repr

/-- The guard of line 478:
`(event.totalDays || event.total_days) && (event.totalDays > 1 || event.total_days > 1)`
(JS comparison with `undefined` is false, so `> 1` on a missing field is
false). -/
def durationGuard (e : Event) : Bool :=
  (truthyN e.totalDays || truthyN e.total_days) &&
    (gtOneN e.totalDays || gtOneN e.total_days)

/-- The value interpolated on line 479: `event.totalDays || event.total_days`. -/
def durationShown (e : Event) : Option Int :=
  jsOrN e.totalDays e.total_days

/-- Lines 478-480: the event-duration line, or the empty string when the
guard fails. -/
def durationLine (e : Event) : String :=
  if durationGuard e then
    "*Event Duration:* " ++ intDisplay (durationShown e) ++ " days\n"
  else ""

/-- Line 468: `*Event Date:* ${formatDate(event.eventDate || event.event_date)}`. -/
def eventDateLine (host : DateHost) (e : Event) : String :=
  "*Event Date:* " ++ formatDate host (jsOrS e.eventDate e.event_date) ++ "\n"

/-- `formatEventMessage` (server.js lines 430-489). -/
def formatEventMessage (host : DateHost) (event : Event) (staff : Staff) : String :=
  "*EVENT ASSIGNMENT*\n\n" ++
    "Hello *" ++ staff.full_name ++ "*,\n\n" ++
    "You have been assigned as *" ++
      ((jsOrS event.role (jsOrS staff.role (some "STAFF"))).getD "").toUpper ++
      "* for the following event:\n\n" ++
    "*Event Title:* " ++ (jsOrS event.title (some "Not specified")).getD "" ++ "\n" ++
    "*Event Type:* " ++
      (jsOrS event.eventType (jsOrS event.event_type (some "Not specified"))).getD "" ++ "\n" ++
    eventDateLine host event ++
    (if truthyS event.venue && !((event.venue.getD "").trim.isEmpty) then
        "*Venue:* " ++ event.venue.getD "" ++ "\n"
      else "") ++
    (if truthyS event.clientName || truthyS event.client_name then
        "*Client Name:* " ++ (jsOrS event.clientName event.client_name).getD "" ++ "\n"
      else "") ++
    durationLine event ++
    (if truthyS event.description && !((event.description.getD "").trim.isEmpty) then
        "\n*Additional Details:*\n_" ++ event.description.getD "" ++ "_\n"
      else "") ++
    "\nThank you for your professionalism and commitment."

structure Task where
  title : Option String
  taskType : Option String
  task_type : Option String
  priority : Option String
  dueDate : Option String
  due_date : Option String
  eventTitle : Option String
  event_title : Option String
  amount : Option Int
  description : Option String
deriving DecidableEq, Repr

/-- `task.amount.toLocaleString()` renders with host-locale digit
grouping; the grouping is display-only, decided by the host locale, and
no claim depends on it, so it is modelled as plain decimal rendering. -/
def localeAmount (v : Int) : String := toString v

/-- Lines 531-533: the due-date line of a task message, using the shared
`formatDate` renderer. -/
def taskDueDateLine (host : DateHost) (t : Task) : String :=
  if truthyS t.dueDate || truthyS t.due_date then
    "*Due Date:* " ++ formatDate host (jsOrS t.dueDate t.due_date) ++ "\n"
  else ""

/-- `formatTaskMessage` (server.js lines 491-550). -/
def formatTaskMessage (host : DateHost) (task : Task) (staff : Staff) : String :=
  "*TASK ASSIGNMENT*\n\n" ++
    "Hello *" ++ staff.full_name ++ "*,\n\n" ++
    "You have been assigned a new task:\n\n" ++
    "*Task Title:* " ++ (jsOrS task.title (some "Not specified")).getD "" ++ "\n" ++
    "*Task Type:* " ++
      (jsOrS task.taskType (jsOrS task.task_type (some "General"))).getD "" ++ "\n" ++
    "*Priority:* " ++ (jsOrS task.priority (some "Medium")).getD "" ++ "\n" ++
    taskDueDateLine host task ++
    (if truthyS task.eventTitle || truthyS task.event_title then
        "*Related Event:* " ++ (jsOrS task.eventTitle task.event_title).getD "" ++ "\n"
      else "") ++
    (if truthyN task.amount && gtZeroN task.amount then
        "*Compensation:* ₹" ++ localeAmount (task.amount.getD 0) ++ "\n"
      else "") ++
    (if truthyS task.description && !((task.description.getD "").trim.isEmpty) then
        "\n*Task Description:*\n_" ++ task.description.getD "" ++ "_\n"
      else "") ++
    "\nThank you for your professionalism."

/-- A host whose `Date` parser rejects everything and whose locale
renderer never throws; used to instantiate host-quantified theorems. -/
def dateHostNone : DateHost :=
  { parse := fun _ => none, toLocale := fun _ => Except.ok "" }

/-- C7: the shared date renderer of the event and task templaters maps
`null`/`undefined`, the empty string, and the placeholder strings
"undefined"/"null" to "Date not specified"; parses a bare `YYYY-MM-DD`
string with `"T00:00:00"` appended (local midnight per ECMA-262); maps any
value the host fails to parse to "Invalid date"; and never lets an
exception propagate (`formatDate` is total, and a throw from the locale
renderer is caught and rendered as "Date formatting error").  The last
conjunct is the spec's scenario: an event whose date is "not-a-date"
renders its date line as "Invalid date". -/
theorem formatDate_rendering (host : DateHost) :
    formatDate host none = "Date not specified" ∧
    formatDate host (some "") = "Date not specified" ∧
    formatDate host (some "undefined") = "Date not specified" ∧
    formatDate host (some "null") = "Date not specified" ∧
    (∀ s : String, isBareDate s.toList = true →
      formatDate host (some s) =
        match host.parse (s ++ "T00:00:00") with
        | none => "Invalid date"
        | some t =>
          match host.toLocale t with
          | Except.ok out => out
          | Except.error _ => "Date formatting error") ∧
    (∀ s : String, isBareDate s.toList = false → s ≠ "" → s ≠ "undefined" → s ≠ "null" →
      host.parse s = none → formatDate host (some s) = "Invalid date") ∧
    (∀ s : String, ∀ t : Int, ∀ msg : String,
      isBareDate s.toList = false → s ≠ "" → s ≠ "undefined" → s ≠ "null" →
      host.parse s = some t → host.toLocale t = Except.error msg →
      formatDate host (some s) = "Date formatting error") ∧
    (host.parse "not-a-date" = none → ∀ e : Event,
      e.eventDate = some "not-a-date" → e.event_date = none →
      eventDateLine host e = "*Event Date:* Invalid date\n") := by
  refine ⟨rfl, by simp [formatDate], by simp [formatDate], by simp [formatDate],
    ?_, ?_, ?_, ?_⟩
  · intro s hbare
    have hne : ¬(s = "" ∨ s = "undefined" ∨ s = "null") := by
      rintro (rfl | rfl | rfl) <;> exact absurd hbare (by decide)
    simp only [formatDate]
    rw [if_neg hne, if_pos hbare]
  · intro s hbare h1 h2 h3 hparse
    have hne : ¬(s = "" ∨ s = "undefined" ∨ s = "null") := by
      rintro (rfl | rfl | rfl) <;> simp_all
    simp only [formatDate]
    rw [if_neg hne,
      if_neg (show ¬(isBareDate s.toList = true) by
        simp only [Bool.not_eq_true]; exact hbare),
      hparse]
  · intro s t msg hbare h1 h2 h3 hparse hloc
    have hne : ¬(s = "" ∨ s = "undefined" ∨ s = "null") := by
      rintro (rfl | rfl | rfl) <;> simp_all
    simp only [formatDate]
    rw [if_neg hne,
      if_neg (show ¬(isBareDate s.toList = true) by
        simp only [Bool.not_eq_true]; exact hbare),
      hparse]
    simp [hloc]
  · intro hparse e hdate hdate2
    have hjs : jsOrS e.eventDate e.event_date = some "not-a-date" := by
      rw [hdate, hdate2]; rfl
    have hne : ¬(("not-a-date" : String) = "" ∨ ("not-a-date" : String) = "undefined" ∨
        ("not-a-date" : String) = "null") := by decide
    simp only [eventDateLine, hjs]
    simp only [formatDate]
    rw [if_neg hne,
      if_neg (show ¬(isBareDate ("not-a-date" : String).toList = true) by decide),
      hparse]
    rfl

/-- Witness for C7: at the all-rejecting host, the "not-a-date" input of
the spec's scenario renders as "Invalid date". -/
theorem formatDate_rendering_witness :
    formatDate dateHostNone (some "not-a-date") = "Invalid date" :=
  (formatDate_rendering dateHostNone).2.2.2.2.2.1 "not-a-date"
    (by decide) (by decide) (by decide) (by decide) rfl

/-- An event carrying both duration field spellings with different values:
`totalDays` is 1 (truthy) and `total_days` is 2 (> 1), so the guard of
line 478 passes but the interpolation of line 479 displays 1. -/
def eventBothSpellings : Event :=
  { title := none, role := none, eventType := none, event_type := none,
    eventDate := none, event_date := none, venue := none, clientName := none,
    client_name := none, totalDays := some 1, total_days := some 2,
    description := none }

/-- Counterexample for C8: as stated the claim is false — with
`totalDays = 1` and `total_days = 2` the rendered message contains an
"Event Duration: 1 days" line whose displayed value is not greater
than 1. -/
theorem duration_line_value_cex :
    durationLine eventBothSpellings = "*Event Duration:* 1 days\n" ∧
    ¬(∀ e : Event, durationGuard e = true →
        ∀ v : Int, durationShown e = some v → 1 < v) := by
  constructor
  · rfl
  · intro h
    have h1 := h eventBothSpellings (by decide) 1 (by decide)
    exact absurd h1 (by decide)

lemma duration_value_gt_one (e : Event)
    (hcase : e.totalDays = none ∨ e.total_days = none ∨ e.totalDays = e.total_days)
    (hguard : durationGuard e = true) :
    ∀ v : Int, durationShown e = some v → 1 < v := by
  intro v hshown
  rcases hcase with h | h | h
  · cases htd : e.total_days with
    | none => simp [durationGuard, h, htd, truthyN, gtOneN] at hguard
    | some w =>
      simp [durationGuard, h, htd, truthyN, gtOneN] at hguard
      obtain ⟨h0, h1⟩ := hguard
      simp [durationShown, jsOrN, truthyN, h, htd] at hshown
      omega
  · cases htD : e.totalDays with
    | none => simp [durationGuard, htD, h, truthyN, gtOneN] at hguard
    | some u =>
      simp [durationGuard, htD, h, truthyN, gtOneN] at hguard
      obtain ⟨h0, h1⟩ := hguard
      simp [durationShown, jsOrN, truthyN, htD, h, h0] at hshown
      omega
  · cases htD : e.totalDays with
    | none =>
      rw [htD] at h
      simp [durationGuard, htD, ← h, truthyN, gtOneN] at hguard
    | some u =>
      rw [htD] at h
      simp [durationGuard, htD, ← h, truthyN, gtOneN] at hguard
      obtain ⟨h0, h1⟩ := hguard
      simp [durationShown, jsOrN, truthyN, htD, ← h] at hshown
      omega

lemma durationShown_isSome_of_guard (e : Event) (h : durationGuard e = true) :
    ∃ v, durationShown e = some v := by
  simp only [durationGuard, Bool.and_eq_true, Bool.or_eq_true] at h
  obtain ⟨h1, _⟩ := h
  simp only [durationShown, jsOrN]
  by_cases ht : truthyN e.totalDays = true
  · rw [if_pos ht]
    cases htD : e.totalDays with
    | none => rw [htD] at ht; simp [truthyN] at ht
    | some u => exact ⟨u, rfl⟩
  · rw [if_neg ht]
    rcases h1 with h1 | h1
    · exact absurd h1 ht
    · cases htd : e.total_days with
      | none => rw [htd] at h1; simp [truthyN] at h1
      | some w => exact ⟨w, rfl⟩

lemma durationGuard_false_of_le_one (e : Event)
    (hcase : e.totalDays = none ∨ e.total_days = none ∨ e.totalDays = e.total_days)
    (hle : ∀ v : Int, durationShown e = some v → v ≤ 1) :
    durationGuard e = false := by
  by_contra hne
  simp only [Bool.not_eq_false] at hne
  obtain ⟨v, hv⟩ := durationShown_isSome_of_guard e hne
  have hgt := duration_value_gt_one e hcase hne v hv
  have := hle v hv
  omega

/-- C8 (amended): the duration line displays `totalDays` when truthy and
`total_days` otherwise, and its guard passes when either spelling is
truthy and either exceeds 1; hence whenever the two spellings do not
disagree (one absent, or both equal), a displayed duration value is
greater than 1, and no duration line is rendered when the duration is at
most 1 or absent.  With disagreeing spellings the displayed value can be
1 or less (see the counterexample). -/
theorem duration_line_gt_one_amended :
    (∀ e : Event,
      (e.totalDays = none ∨ e.total_days = none ∨ e.totalDays = e.total_days) →
      durationGuard e = true → ∀ v : Int, durationShown e = some v → 1 < v) ∧
    (∀ e : Event,
      (e.totalDays = none ∨ e.total_days = none ∨ e.totalDays = e.total_days) →
      (∀ v : Int, durationShown e = some v → v ≤ 1) →
      durationLine e = "") := by
  constructor
  · exact duration_value_gt_one
  · intro e hcase hle
    simp [durationLine, durationGuard_false_of_le_one e hcase hle]

/-- An event whose only duration spelling is `totalDays = 3`. -/
def eventThreeDays : Event :=
  { title := none, role := none, eventType := none, event_type := none,
    eventDate := none, event_date := none, venue := none, clientName := none,
    client_name := none, totalDays := some 3, total_days := none,
    description := none }

/-- Witness for the amended C8 at a single-spelling event with duration 3:
the guard passes and the displayed value exceeds 1. -/
theorem duration_line_gt_one_amended_witness :
    durationGuard eventThreeDays = true ∧ (1 : Int) < 3 :=
  ⟨by decide,
    duration_line_gt_one_amended.1 eventThreeDays (Or.inr (Or.inl rfl))
      (by decide) 3 (by decide)⟩

/-! ## DispatchQueue + DrainLoop + Scheduler (server.js lines 27-73, 232-417, 552-558)

The mutable globals of the process are gathered in `SysState`.  JavaScript
runs the code single-threaded: `processMessageQueue` executes atomically
from its guard up to its first `await`; at each `await` (the
`client.sendMessage` call and the 2000 ms pacing `setTimeout`) control can
interleave with HTTP handlers (enqueue, clear-queue), the cron tick, and
session events.  The model is a step function over those interleaving
points:

* `Ev.enqueue ms` — an HTTP queuing endpoint pushes a batch of entries and
  then calls `processMessageQueue()` (lines 252-279, 318-338, 377-397);
* `Ev.tick` — the 30-second cron trigger (lines 553-558);
* `Ev.sendOk` / `Ev.sendFail` — the awaited `client.sendMessage` of the
  iteration in flight resolves or rejects; on resolution the code reports
  the outcome and starts the pacing delay (lines 50-59), on rejection it
  reports failure and immediately re-enters the loop check (lines 61-68);
* `Ev.delayDone` — the pacing `setTimeout` fires and the loop check runs
  (lines 44-45, 59);
* `Ev.disconnect` / `Ev.becameReady` — session state transitions
  (lines 130-135, 147-157);
* `Ev.clear` — `POST /api/clear-queue` replaces the queue by `[]`
  (lines 409-417).

Queue entries enqueued by the three endpoints carry no `statusCallback`
field, so outcome callbacks do not appear in this model (they are modelled
separately for the exception analysis of the drain-active flag).  `popped`
logs every `messageQueue.shift()` in order; `outcomes` logs every reported
send outcome in order. -/

structure QueuedMessage where
  id : Nat
  number : String
  message : String
deriving DecidableEq, Repr

inductive SendResult
  | ok
  | failed
deriving DecidableEq, Repr

/-- The suspension point of the one in-flight iteration of the drain
loop: awaiting `client.sendMessage` of entry `m`, or awaiting the pacing
delay. -/
inductive DrainPC
  | sending (m : QueuedMessage)
  | delaying
deriving DecidableEq, Repr

structure SysState where
  messageQueue : List QueuedMessage
  isClientReady : Bool
  isProcessingQueue : Bool
  /-- The suspended executions of `processMessageQueue` (each element is
  one async invocation that has passed the guard and is parked at an
  `await`).  The code intends at most one; the model does not build that
  in — it is proved as an invariant. -/
  drains : List DrainPC
  /-- Log of `messageQueue.shift()` results, in pop order. -/
  popped : List QueuedMessage
  /-- Log of reported per-message outcomes, in report order. -/
  outcomes : List (QueuedMessage × SendResult)
deriving DecidableEq, Repr

/-- The `while (messageQueue.length > 0 && isClientReady)` check of
line 44, run by the drain execution whose iteration just ended (`ds` are
the other suspended executions): either shift the next entry and suspend
on its send, or exit the loop and clear the drain-active flag
(lines 71-72). -/
def loopCheck (s : SysState) (ds : List DrainPC) : SysState :=
  match s.messageQueue, s.isClientReady with
  | m :: rest, true =>
    { s with
      messageQueue := rest
      popped := s.popped ++ [m]
      drains := DrainPC.sending m :: ds }
  | _, _ => { s with isProcessingQueue := false, drains := ds }

/-- `processMessageQueue` (lines 36-73) run synchronously up to its first
`await`: the guard of lines 37-39, then `isProcessingQueue = true`
(line 41) and the first loop check. -/
def processMessageQueue (s : SysState) : SysState :=
  if s.isProcessingQueue = true ∨ s.messageQueue = [] ∨ s.isClientReady = false then s
  else loopCheck { s with isProcessingQueue := true } s.drains

inductive Ev
  | enqueue (ms : List QueuedMessage)
  | tick
  | sendOk
  | sendFail
  | delayDone
  | disconnect
  | becameReady
  | clear
deriving DecidableEq, Repr

def step (s : SysState) : Ev → SysState
  | Ev.enqueue ms =>
    processMessageQueue { s with messageQueue := s.messageQueue ++ ms }
  | Ev.tick =>
    if s.messageQueue ≠ [] ∧ s.isClientReady = true ∧ s.isProcessingQueue = false then
      processMessageQueue s
    else s
  | Ev.sendOk =>
    match s.drains with
    | DrainPC.sending m :: ds =>
      { s with
        outcomes := s.outcomes ++ [(m, SendResult.ok)]
        drains := DrainPC.delaying :: ds }
    | _ => s
  | Ev.sendFail =>
    match s.drains with
    | DrainPC.sending m :: ds =>
      loopCheck { s with outcomes := s.outcomes ++ [(m, SendResult.failed)] } ds
    | _ => s
  | Ev.delayDone =>
    match s.drains with
    | DrainPC.delaying :: ds => loopCheck s ds
    | _ => s
  | Ev.disconnect => { s with isClientReady := false }
  | Ev.becameReady => { s with isClientReady := true }
  | Ev.clear => { s with messageQueue := [] }

def run (s : SysState) (evs : List Ev) : SysState :=
  evs.foldl step s

/-- The process start state (lines 27-33). -/
def initState : SysState :=
  { messageQueue := []
    isClientReady := false
    isProcessingQueue := false
    drains := []
    popped := []
    outcomes := [] }

/-- The queue entries currently held by a suspended send. -/
def inFlight (s : SysState) : List QueuedMessage :=
  s.drains.filterMap fun pc =>
    match pc with
    | DrainPC.sending m => some m
    | DrainPC.delaying => none

/-- The system invariant: at most one drain execution exists, the
drain-active flag is set exactly while one exists, and the pop log equals
the reported outcomes followed by the in-flight entry. -/
def Inv (s : SysState) : Prop :=
  s.drains.length ≤ 1 ∧
    (s.isProcessingQueue = true ↔ s.drains ≠ []) ∧
    s.popped = s.outcomes.map Prod.fst ++ inFlight s

lemma inv_processMessageQueue (s : SysState) (h : Inv s) :
    Inv (processMessageQueue s) := by
  obtain ⟨hlen, hiff, hpop⟩ := h
  unfold processMessageQueue
  split
  · exact ⟨hlen, hiff, hpop⟩
  · next hg =>
    push_neg at hg
    obtain ⟨hflag, hne, hready⟩ := hg
    have hflag' : s.isProcessingQueue = false := by
      cases hpq : s.isProcessingQueue with
      | true => exact absurd hpq hflag
      | false => rfl
    have hready' : s.isClientReady = true := by
      cases hrd : s.isClientReady with
      | false => exact absurd hrd hready
      | true => rfl
    have hdr : s.drains = [] := by
      by_contra hd
      exact absurd (hiff.mpr hd) (by simp [hflag'])
    cases hq : s.messageQueue with
    | nil => exact absurd hq hne
    | cons m rest =>
      unfold loopCheck
      simp only [hq, hready', hdr]
      refine ⟨by simp, by simp, ?_⟩
      simp only [inFlight, hdr, List.filterMap_cons, List.filterMap_nil]
      rw [hpop]
      simp [inFlight, hdr]

lemma inv_step (s : SysState) (e : Ev) (h : Inv s) : Inv (step s e) := by
  obtain ⟨hlen, hiff, hpop⟩ := h
  cases e with
  | enqueue ms =>
    exact inv_processMessageQueue _ ⟨hlen, hiff, by simpa [inFlight] using hpop⟩
  | tick =>
    simp only [step]
    split
    · exact inv_processMessageQueue _ ⟨hlen, hiff, hpop⟩
    · exact ⟨hlen, hiff, hpop⟩
  | sendOk =>
    simp only [step]
    cases hd : s.drains with
    | nil => exact ⟨hlen, hiff, hpop⟩
    | cons pc ds =>
      cases pc with
      | delaying => exact ⟨hlen, hiff, hpop⟩
      | sending m =>
        have hds : ds = [] := by
          rw [hd] at hlen
          simpa using hlen
        subst hds
        have hflag : s.isProcessingQueue = true := hiff.mpr (by simp [hd])
        have hfl : inFlight s = [m] := by simp [inFlight, hd]
        rw [hfl] at hpop
        dsimp only
        refine ⟨by simp, by simp [hflag], ?_⟩
        simp [inFlight, hpop, List.map_append]
  | sendFail =>
    simp only [step]
    cases hd : s.drains with
    | nil => exact ⟨hlen, hiff, hpop⟩
    | cons pc ds =>
      cases pc with
      | delaying => exact ⟨hlen, hiff, hpop⟩
      | sending m =>
        have hds : ds = [] := by
          rw [hd] at hlen
          simpa using hlen
        subst hds
        have hflag : s.isProcessingQueue = true := hiff.mpr (by simp [hd])
        have hfl : inFlight s = [m] := by simp [inFlight, hd]
        rw [hfl] at hpop
        dsimp only
        unfold loopCheck
        cases hq : s.messageQueue with
        | nil =>
          dsimp only
          refine ⟨by simp, by simp, ?_⟩
          simp [inFlight, hpop, List.map_append]
        | cons m2 rest =>
          cases hrd : s.isClientReady with
          | false =>
            dsimp only
            refine ⟨by simp, by simp, ?_⟩
            simp [inFlight, hpop, List.map_append]
          | true =>
            dsimp only
            refine ⟨by simp, by simp [hflag], ?_⟩
            simp [inFlight, hpop, List.map_append]
  | delayDone =>
    simp only [step]
    cases hd : s.drains with
    | nil => exact ⟨hlen, hiff, hpop⟩
    | cons pc ds =>
      cases pc with
      | sending m => exact ⟨hlen, hiff, hpop⟩
      | delaying =>
        have hds : ds = [] := by
          rw [hd] at hlen
          simpa using hlen
        subst hds
        have hflag : s.isProcessingQueue = true := hiff.mpr (by simp [hd])
        have hfl : inFlight s = [] := by simp [inFlight, hd]
        rw [hfl] at hpop
        dsimp only
        unfold loopCheck
        cases hq : s.messageQueue with
        | nil =>
          dsimp only
          refine ⟨by simp, by simp, ?_⟩
          simp [inFlight, hpop]
        | cons m2 rest =>
          cases hrd : s.isClientReady with
          | false =>
            dsimp only
            refine ⟨by simp, by simp, ?_⟩
            simp [inFlight, hpop]
          | true =>
            dsimp only
            refine ⟨by simp, by simp [hflag], ?_⟩
            simp [inFlight, hpop]
  | disconnect => exact ⟨hlen, hiff, by simpa [inFlight] using hpop⟩
  | becameReady => exact ⟨hlen, hiff, by simpa [inFlight] using hpop⟩
  | clear => exact ⟨hlen, hiff, by simpa [inFlight] using hpop⟩

lemma inv_initState : Inv initState := by
  refine ⟨by simp [initState], by simp [initState], by simp [initState, inFlight]⟩

lemma inv_run (s : SysState) (h : Inv s) (evs : List Ev) : Inv (run s evs) := by
  induction evs generalizing s with
  | nil => exact h
  | cons e t ih => exact ih (step s e) (inv_step s e h)

/-- C2: the guard of lines 37-39 makes `processMessageQueue` an immediate
no-op whenever the drain-active flag is set, the queue is empty, or the
session is not ready; while a drain is active, an enqueue only appends to
the queue (leaving every suspended drain untouched) and a cron tick does
nothing; and consequently, along every event sequence from process start,
at most one drain execution exists at any instant. -/
theorem drain_mutual_exclusion :
    (∀ s : SysState,
      s.isProcessingQueue = true ∨ s.messageQueue = [] ∨ s.isClientReady = false →
      processMessageQueue s = s) ∧
    (∀ s : SysState, s.isProcessingQueue = true →
      (∀ ms, (step s (Ev.enqueue ms)).drains = s.drains ∧
        (step s (Ev.enqueue ms)).isProcessingQueue = true ∧
        (step s (Ev.enqueue ms)).messageQueue = s.messageQueue ++ ms) ∧
      step s Ev.tick = s) ∧
    (∀ evs : List Ev, (run initState evs).drains.length ≤ 1) := by
  refine ⟨?_, ?_, ?_⟩
  · intro s h
    unfold processMessageQueue
    rw [if_pos h]
  · intro s h
    constructor
    · intro ms
      have : step s (Ev.enqueue ms) = { s with messageQueue := s.messageQueue ++ ms } := by
        simp only [step]
        unfold processMessageQueue
        rw [if_pos (Or.inl h)]
      rw [this]
      exact ⟨rfl, h, rfl⟩
    · simp [step, h]
  · intro evs
    exact (inv_run initState inv_initState evs).1

/-- Witness for C2: a state with the drain-active flag set absorbs a
`processMessageQueue` invocation, and from the start state no sequence of
events (here: ready, a 2-element enqueue, a tick arriving mid-drain)
produces more than one drain. -/
theorem drain_mutual_exclusion_witness :
    processMessageQueue
        { messageQueue := [⟨1, "9876543210", "hi"⟩]
          isClientReady := true
          isProcessingQueue := true
          drains := [DrainPC.delaying]
          popped := []
          outcomes := [] } =
      { messageQueue := [⟨1, "9876543210", "hi"⟩]
        isClientReady := true
        isProcessingQueue := true
        drains := [DrainPC.delaying]
        popped := []
        outcomes := [] } ∧
    (run initState [Ev.becameReady,
        Ev.enqueue [⟨1, "9876543210", "hi"⟩, ⟨2, "919876543211", "yo"⟩],
        Ev.tick]).drains.length ≤ 1 :=
  ⟨drain_mutual_exclusion.1 _ (Or.inl rfl), drain_mutual_exclusion.2.2 _⟩

/-- The entries appended by the enqueue events of a trace, in order. -/
def enqueuedOf : List Ev → List QueuedMessage
  | [] => []
  | Ev.enqueue ms :: t => ms ++ enqueuedOf t
  | _ :: t => enqueuedOf t

/-- The entries whose outcome was reported as sent, in report order. -/
def sentList (s : SysState) : List QueuedMessage :=
  (s.outcomes.filter fun p => p.2 == SendResult.ok).map Prod.fst

lemma loopCheck_popped_queue (s : SysState) (ds : List DrainPC) :
    (loopCheck s ds).popped ++ (loopCheck s ds).messageQueue =
      s.popped ++ s.messageQueue := by
  unfold loopCheck
  cases hq : s.messageQueue with
  | nil => rfl
  | cons m rest =>
    cases hrd : s.isClientReady with
    | false => rfl
    | true => simp

lemma processMessageQueue_popped_queue (s : SysState) :
    (processMessageQueue s).popped ++ (processMessageQueue s).messageQueue =
      s.popped ++ s.messageQueue := by
  unfold processMessageQueue
  split
  · rfl
  · rw [loopCheck_popped_queue]

lemma step_popped_queue (s : SysState) (e : Ev) (he : e ≠ Ev.clear) :
    (step s e).popped ++ (step s e).messageQueue =
      s.popped ++ s.messageQueue ++ enqueuedOf [e] := by
  cases e with
  | enqueue ms =>
    simp only [step, enqueuedOf]
    rw [processMessageQueue_popped_queue]
    simp
  | tick =>
    simp only [step, enqueuedOf]
    split
    · rw [processMessageQueue_popped_queue]; simp
    · simp
  | sendOk =>
    simp only [step, enqueuedOf]
    cases hd : s.drains with
    | nil => simp
    | cons pc ds =>
      cases pc with
      | delaying => simp
      | sending m => simp
  | sendFail =>
    simp only [step, enqueuedOf]
    cases hd : s.drains with
    | nil => simp
    | cons pc ds =>
      cases pc with
      | delaying => simp
      | sending m =>
        dsimp only
        rw [loopCheck_popped_queue]
        simp
  | delayDone =>
    simp only [step, enqueuedOf]
    cases hd : s.drains with
    | nil => simp
    | cons pc ds =>
      cases pc with
      | sending m => simp
      | delaying =>
        dsimp only
        rw [loopCheck_popped_queue]
        simp
  | disconnect => simp [step, enqueuedOf]
  | becameReady => simp [step, enqueuedOf]
  | clear => exact absurd rfl he

lemma enqueuedOf_cons (e : Ev) (t : List Ev) :
    enqueuedOf (e :: t) = enqueuedOf [e] ++ enqueuedOf t := by
  cases e <;> simp [enqueuedOf]

lemma run_popped_queue (evs : List Ev) (hnc : Ev.clear ∉ evs) (s : SysState) :
    (run s evs).popped ++ (run s evs).messageQueue =
      s.popped ++ s.messageQueue ++ enqueuedOf evs := by
  induction evs generalizing s with
  | nil => simp [run, enqueuedOf]
  | cons e t ih =>
    have he : e ≠ Ev.clear := fun h => hnc (by simp [h])
    have ht : Ev.clear ∉ t := fun h => hnc (List.mem_cons_of_mem e h)
    have h1 : run s (e :: t) = run (step s e) t := rfl
    rw [h1, ih ht (step s e), step_popped_queue s e he, enqueuedOf_cons e t]
    simp

/-- C3: FIFO discipline.  Along every event sequence from process start
that contains no `clear-queue` request, the pop log followed by the
remaining queue equals exactly the entries enqueued, in enqueue order —
so pops happen in enqueue order (the pop log is a prefix of the enqueue
order), nothing is popped twice when the enqueued ids are distinct, and
the entries reported sent form a sublist of the pop log, in the same
order. -/
theorem queue_fifo_order (evs : List Ev) (hnc : Ev.clear ∉ evs) :
    (run initState evs).popped ++ (run initState evs).messageQueue = enqueuedOf evs ∧
    (run initState evs).popped =
      (enqueuedOf evs).take (run initState evs).popped.length ∧
    ((enqueuedOf evs).Nodup → (run initState evs).popped.Nodup) ∧
    List.Sublist (sentList (run initState evs)) (run initState evs).popped := by
  have hmain : (run initState evs).popped ++ (run initState evs).messageQueue =
      enqueuedOf evs := by
    have h := run_popped_queue evs hnc initState
    simpa [initState] using h
  refine ⟨hmain, ?_, ?_, ?_⟩
  · rw [← hmain, List.take_left]
  · intro hnd
    rw [← hmain] at hnd
    exact hnd.of_append_left
  · have hinv := inv_run initState inv_initState evs
    obtain ⟨_, _, hpop⟩ := hinv
    rw [hpop]
    refine List.Sublist.trans ?_ (List.sublist_append_left _ _)
    unfold sentList
    exact List.Sublist.map Prod.fst (List.filter_sublist _)

/-- Sample entries for concrete traces. -/
def msgA : QueuedMessage := { id := 1, number := "9876543210", message := "hello" }

def msgB : QueuedMessage := { id := 2, number := "919876543211", message := "again" }

/-- A trace: session becomes ready, two entries are enqueued (starting a
drain), both sends succeed with the pacing delay between them. -/
def fifoEvs : List Ev :=
  [Ev.becameReady, Ev.enqueue [msgA, msgB], Ev.sendOk, Ev.delayDone,
    Ev.sendOk, Ev.delayDone]

/-- Witness for C3 on the concrete two-message trace. -/
theorem queue_fifo_order_witness :
    (run initState fifoEvs).popped ++ (run initState fifoEvs).messageQueue =
      enqueuedOf fifoEvs :=
  (queue_fifo_order fifoEvs (by decide)).1

/-- The await-resolution events of `n` further successful drain
iterations: each iteration is a send resolution followed by the pacing
delay firing. -/
def iterEvs : Nat → List Ev
  | 0 => []
  | n + 1 => Ev.sendOk :: Ev.delayDone :: iterEvs n

/-- A cron tick followed by the resolutions of `n` successful iterations:
enough events to drain a queue of `n` entries completely. -/
def drainEvs (n : Nat) : List Ev :=
  Ev.tick :: iterEvs n

lemma drain_mid (q : List QueuedMessage) :
    ∀ (s : SysState) (m : QueuedMessage),
      s.isClientReady = true → s.isProcessingQueue = true →
      s.drains = [DrainPC.sending m] → s.messageQueue = q →
      run s (iterEvs (q.length + 1)) =
        { s with
          messageQueue := []
          popped := s.popped ++ q
          outcomes := s.outcomes ++ (m :: q).map (fun x => (x, SendResult.ok))
          drains := []
          isProcessingQueue := false } := by
  induction q with
  | nil =>
    intro s m hr hp hd hq
    obtain ⟨mq, rd, pq, dr, pp, oc⟩ := s
    dsimp only at hr hp hd hq
    subst hr; subst hp; subst hd; subst hq
    simp [iterEvs, run, step, loopCheck]
  | cons m2 rest ih =>
    intro s m hr hp hd hq
    obtain ⟨mq, rd, pq, dr, pp, oc⟩ := s
    dsimp only at hr hp hd hq
    subst hr; subst hp; subst hd; subst hq
    have h2 : iterEvs ((m2 :: rest).length + 1) =
        Ev.sendOk :: Ev.delayDone :: iterEvs (rest.length + 1) := by
      simp [iterEvs]
    rw [h2]
    have h3 : run (⟨m2 :: rest, true, true, [DrainPC.sending m], pp, oc⟩ : SysState)
        (Ev.sendOk :: Ev.delayDone :: iterEvs (rest.length + 1)) =
        run (⟨rest, true, true, [DrainPC.sending m2], pp ++ [m2],
          oc ++ [(m, SendResult.ok)]⟩ : SysState) (iterEvs (rest.length + 1)) := by
      show run (step (step _ Ev.sendOk) Ev.delayDone) (iterEvs (rest.length + 1)) = _
      simp [step, loopCheck]
    rw [h3, ih _ m2 rfl rfl rfl rfl]
    simp

lemma drain_all (q : List QueuedMessage) (s : SysState)
    (hr : s.isClientReady = true) (hp : s.isProcessingQueue = false)
    (hd : s.drains = []) (hq : s.messageQueue = q) :
    run s (drainEvs q.length) =
      { s with
        messageQueue := []
        popped := s.popped ++ q
        outcomes := s.outcomes ++ q.map (fun x => (x, SendResult.ok))
        drains := []
        isProcessingQueue := false } := by
  obtain ⟨mq, rd, pq, dr, pp, oc⟩ := s
  dsimp only at hr hp hd hq
  subst hr; subst hp; subst hd; subst hq
  cases mq with
  | nil => simp [drainEvs, iterEvs, run, step]
  | cons m rest =>
    have h1 : run (⟨m :: rest, true, false, [], pp, oc⟩ : SysState)
        (drainEvs (m :: rest).length) =
        run (⟨rest, true, true, [DrainPC.sending m], pp ++ [m], oc⟩ : SysState)
          (iterEvs (rest.length + 1)) := by
      show run (step _ Ev.tick) (iterEvs (rest.length + 1)) = _
      simp [step, processMessageQueue, loopCheck]
    rw [h1, drain_mid rest _ m rfl rfl rfl rfl]
    simp

/-- C5: if readiness is revoked while the drain loop is inside an
iteration's pacing wait, the loop-check that follows exits the loop: the
remaining entries stay queued, unchanged and in order, nothing further is
popped or reported, and the drain-active flag clears.  Once readiness
returns and a drain trigger fires (a cron tick here), exactly the
remaining entries are drained — appended to the pop log in their original
order, each reported exactly once (no loss, no duplication). -/
theorem drain_pause_resume_no_loss (s : SysState) (rest : List QueuedMessage)
    (hr : s.isClientReady = true) (hp : s.isProcessingQueue = true)
    (hd : s.drains = [DrainPC.delaying]) (hq : s.messageQueue = rest) :
    (run s [Ev.disconnect, Ev.delayDone]).messageQueue = rest ∧
    (run s [Ev.disconnect, Ev.delayDone]).popped = s.popped ∧
    (run s [Ev.disconnect, Ev.delayDone]).outcomes = s.outcomes ∧
    (run s [Ev.disconnect, Ev.delayDone]).drains = [] ∧
    (run s [Ev.disconnect, Ev.delayDone]).isProcessingQueue = false ∧
    run (run s [Ev.disconnect, Ev.delayDone]) (Ev.becameReady :: drainEvs rest.length) =
      { s with
        messageQueue := []
        isClientReady := true
        isProcessingQueue := false
        drains := []
        popped := s.popped ++ rest
        outcomes := s.outcomes ++ rest.map (fun x => (x, SendResult.ok)) } := by
  obtain ⟨mq, rd, pq, dr, pp, oc⟩ := s
  dsimp only at hr hp hd hq
  subst hr; subst hp; subst hd; subst hq
  have h1 : run (⟨mq, true, true, [DrainPC.delaying], pp, oc⟩ : SysState)
      [Ev.disconnect, Ev.delayDone] =
      (⟨mq, false, false, [], pp, oc⟩ : SysState) := by
    cases mq <;> simp [run, step, loopCheck]
  rw [h1]
  refine ⟨rfl, rfl, rfl, rfl, rfl, ?_⟩
  have h2 : run (⟨mq, false, false, [], pp, oc⟩ : SysState)
      (Ev.becameReady :: drainEvs mq.length) =
      run (⟨mq, true, false, [], pp, oc⟩ : SysState) (drainEvs mq.length) := by
    have : step (⟨mq, false, false, [], pp, oc⟩ : SysState) Ev.becameReady =
        (⟨mq, true, false, [], pp, oc⟩ : SysState) := by simp [step]
    rw [run, List.foldl_cons, this]
    rfl
  rw [h2, drain_all mq _ rfl rfl rfl rfl]

/-- A state mid-drain: entry `msgA` already popped and reported, the loop
in its pacing wait, `msgB` still queued. -/
def midDrainState : SysState :=
  { messageQueue := [msgB]
    isClientReady := true
    isProcessingQueue := true
    drains := [DrainPC.delaying]
    popped := [msgA]
    outcomes := [(msgA, SendResult.ok)] }

/-- Witness for C5: from `midDrainState`, a disconnect leaves `msgB`
queued and untouched, and after reconnection the resumed drain pops
exactly `msgB`. -/
theorem drain_pause_resume_no_loss_witness :
    (run midDrainState [Ev.disconnect, Ev.delayDone]).messageQueue = [msgB] ∧
    (run (run midDrainState [Ev.disconnect, Ev.delayDone])
        (Ev.becameReady :: drainEvs 1)).popped = [msgA, msgB] := by
  have h := drain_pause_resume_no_loss midDrainState [msgB] rfl rfl rfl rfl
  refine ⟨h.1, ?_⟩
  have h6 := h.2.2.2.2.2
  simp only [List.length_cons, List.length_nil, Nat.zero_add] at h6
  rw [h6]
  simp [midDrainState]

/-- C10: clearing the queue while a drain iteration is in flight is
deterministic.  The clear itself removes only the not-yet-popped entries
(pop log, outcome log, and the suspended iteration are untouched); the
entry already popped for the current iteration is still sent and its
outcome reported; and at the next loop check the drain observes the empty
queue, exits, and clears the drain-active flag. -/
theorem clear_queue_mid_drain (s : SysState) (m : QueuedMessage)
    (rest : List QueuedMessage)
    (hr : s.isClientReady = true) (hp : s.isProcessingQueue = true)
    (hd : s.drains = [DrainPC.sending m]) (hq : s.messageQueue = rest) :
    (step s Ev.clear).popped = s.popped ∧
    (step s Ev.clear).outcomes = s.outcomes ∧
    (step s Ev.clear).drains = s.drains ∧
    (step s Ev.clear).messageQueue = [] ∧
    run s [Ev.clear, Ev.sendOk, Ev.delayDone] =
      { s with
        messageQueue := []
        outcomes := s.outcomes ++ [(m, SendResult.ok)]
        drains := []
        isProcessingQueue := false } := by
  obtain ⟨mq, rd, pq, dr, pp, oc⟩ := s
  dsimp only at hr hp hd hq
  subst hr; subst hp; subst hd; subst hq
  refine ⟨rfl, rfl, rfl, rfl, ?_⟩
  simp [run, step, loopCheck]

/-- A state with the send of `msgA` in flight and `msgB` still queued. -/
def midSendState : SysState :=
  { messageQueue := [msgB]
    isClientReady := true
    isProcessingQueue := true
    drains := [DrainPC.sending msgA]
    popped := [msgA]
    outcomes := [] }

/-- Witness for C10 at `midSendState`: the clear leaves the pop log
alone, and the in-flight `msgA` is still reported sent before the loop
exits. -/
theorem clear_queue_mid_drain_witness :
    (step midSendState Ev.clear).popped = [msgA] ∧
    run midSendState [Ev.clear, Ev.sendOk, Ev.delayDone] =
      { messageQueue := []
        isClientReady := true
        isProcessingQueue := false
        drains := []
        popped := [msgA]
        outcomes := [(msgA, SendResult.ok)] } := by
  have h := clear_queue_mid_drain midSendState msgA [msgB] rfl rfl rfl rfl
  exact ⟨h.1, by rw [h.2.2.2.2]; rfl⟩

/-- A state with the send of `msgA` in flight, `msgB` queued, session
ready. -/
def midSendNext : SysState :=
  { messageQueue := [msgB]
    isClientReady := true
    isProcessingQueue := true
    drains := [DrainPC.sending msgA]
    popped := [msgA]
    outcomes := [] }

/-- Counterexample for C1.  The pacing `await` of line 59 sits inside the
`try` block, after the send: when `client.sendMessage` rejects, control
jumps to the `catch` (lines 61-68), which reports the failure and
re-enters the loop check with no delay.  Concretely, from `midSendNext` a
send failure pops and starts sending `msgB` in the very same step — the
drain never passes through the pacing (`delaying`) phase — refuting the
claim that a pacing delay elapses before the next iteration on failures
as well as successes. -/
theorem pacing_delay_skipped_on_failure_cex :
    (step midSendNext Ev.sendFail).drains = [DrainPC.sending msgB] ∧
    (step midSendNext Ev.sendFail).popped = [msgA, msgB] ∧
    ¬(∀ (s : SysState) (m : QueuedMessage) (ds : List DrainPC),
        s.drains = DrainPC.sending m :: ds →
        (step s Ev.sendFail).drains = DrainPC.delaying :: ds ∨
        (step s Ev.sendFail).drains = ds) := by
  refine ⟨rfl, rfl, ?_⟩
  intro h
  rcases h midSendNext msgA [] rfl with hc | hc <;> exact absurd hc (by decide)

/-- C1 (amended): the fixed pacing delay elapses before the next
iteration only after a *successful* send (and its outcome report): the
drain enters the pacing phase, touching neither queue nor pop log, and
only the delay's firing runs the next loop check.  After a *failed* send
the loop check runs immediately: the next entry is popped with no pacing
phase in between (or the loop exits at once when the queue is empty or
readiness was lost). -/
theorem pacing_delay_only_on_success (s : SysState) (m : QueuedMessage)
    (ds : List DrainPC) (hd : s.drains = DrainPC.sending m :: ds) :
    (step s Ev.sendOk).drains = DrainPC.delaying :: ds ∧
    (step s Ev.sendOk).messageQueue = s.messageQueue ∧
    (step s Ev.sendOk).popped = s.popped ∧
    (step s Ev.sendOk).outcomes = s.outcomes ++ [(m, SendResult.ok)] ∧
    ((s.messageQueue = [] ∨ s.isClientReady = false) →
      (step s Ev.sendFail).drains = ds ∧
      (step s Ev.sendFail).isProcessingQueue = false) ∧
    (∀ m2 rest, s.messageQueue = m2 :: rest → s.isClientReady = true →
      (step s Ev.sendFail).drains = DrainPC.sending m2 :: ds ∧
      (step s Ev.sendFail).messageQueue = rest ∧
      (step s Ev.sendFail).popped = s.popped ++ [m2]) := by
  obtain ⟨mq, rd, pq, dr, pp, oc⟩ := s
  dsimp only at hd
  subst hd
  refine ⟨rfl, rfl, rfl, rfl, ?_, ?_⟩
  · rintro (hq | hr)
    · dsimp only at hq
      subst hq
      exact ⟨rfl, rfl⟩
    · dsimp only at hr
      subst hr
      cases mq with
      | nil => exact ⟨rfl, rfl⟩
      | cons m2 rest => exact ⟨rfl, rfl⟩
  · intro m2 rest hq hr
    dsimp only at hq hr
    subst hq; subst hr
    exact ⟨rfl, rfl, rfl⟩

/-- Witness for the amended C1: from `midSendNext`, a successful send
enters the pacing phase without popping anything, while a failed send
pops `msgB` immediately. -/
theorem pacing_delay_only_on_success_witness :
    (step midSendNext Ev.sendOk).drains = [DrainPC.delaying] ∧
    (step midSendNext Ev.sendFail).popped = [msgA] ++ [msgB] := by
  have h := pacing_delay_only_on_success midSendNext msgA [] rfl
  exact ⟨h.1, (h.2.2.2.2.2 msgB [] rfl rfl).2.2⟩

/-! ## The drain-active flag under exceptions (server.js lines 36-73)

`processMessageQueue` clears `isProcessingQueue` on line 71, *after* the
while loop, with no `finally`.  Inside an iteration, exceptions from
`formatPhoneNumber` (total), `client.sendMessage`, or the optional
`statusCallback('sent')` call are caught by the `catch` of line 61, which
then calls `statusCallback('failed', ...)` when a callback is present.
An exception thrown *by that failure-path callback call* is not caught by
anything: it rejects the whole async function, line 71 never runs, and
the flag stays `true`.  (The entries enqueued by this repository's own
endpoints carry no `statusCallback`, so this path needs an entry injected
with one.)  This model tracks one guarded drain execution over a queue of
entries with explicit send/callback behaviours; the session stays ready
throughout. -/

/-- Behaviour of one `statusCallback` invocation: return normally, or
throw with the given message. -/
inductive CbBeh
  | ok
  | throwsErr (msg : String)
deriving DecidableEq, Repr

/-- One queue entry as seen by the loop body: how its awaited
`client.sendMessage` resolves, and — when a `statusCallback` is present —
how the callback behaves when invoked with `'sent'` and with
`'failed'`. -/
structure CbEntry where
  sendOutcome : Except String Unit
  statusCallback : Option (CbBeh × CbBeh)
deriving Repr

/-- One iteration body (lines 46-68) for entry `e`: `none` when control
reaches the next loop check normally, `some msg` when an exception
escapes the iteration. -/
def iterationEscape (e : CbEntry) : Option String :=
  match e.sendOutcome with
  | Except.ok _ =>
    match e.statusCallback with
    | none => none
    | some (cbSent, cbFailed) =>
      match cbSent with
      | CbBeh.ok => none
      | CbBeh.throwsErr _ =>
        match cbFailed with
        | CbBeh.ok => none
        | CbBeh.throwsErr msg2 => some msg2
  | Except.error _ =>
    match e.statusCallback with
    | none => none
    | some (_, cbFailed) =>
      match cbFailed with
      | CbBeh.ok => none
      | CbBeh.throwsErr msg2 => some msg2

/-- The drain loop run over a whole queue of entries, starting just after
the guard set `isProcessingQueue = true`: result is the final value of
the flag paired with the escaping exception, if any.  Line 71 (flag
cleared) runs only when the loop finishes normally. -/
def drainLoopFlag : List CbEntry → Bool × Option String
  | [] => (false, none)
  | e :: rest =>
    match iterationEscape e with
    | none => drainLoopFlag rest
    | some msg => (true, some msg)

/-- An entry whose failure-path callback invocation does not throw (it is
absent or returns normally). -/
def cbFailSafe (e : CbEntry) : Bool :=
  match e.statusCallback with
  | none => true
  | some (_, CbBeh.ok) => true
  | some (_, CbBeh.throwsErr _) => false

/-- Entry whose send rejects and whose callback throws when invoked on
the failure path. -/
def entryStuck : CbEntry :=
  { sendOutcome := Except.error "send refused"
    statusCallback := some (CbBeh.ok, CbBeh.throwsErr "cb boom") }

/-- Counterexample for C6: as stated the claim is false.  For a queue
holding an entry whose send rejects and whose status callback throws when
invoked on the failure path, the drain terminates (by rejection) with the
drain-active flag still `true` — the code has no `finally` guarding
line 71. -/
theorem drain_flag_stuck_cex :
    drainLoopFlag [entryStuck] = (true, some "cb boom") ∧
    ¬(∀ q : List CbEntry, (drainLoopFlag q).1 = false) := by
  constructor
  · rfl
  · intro h
    have h1 := h [entryStuck]
    simp [drainLoopFlag, entryStuck, iterationEscape] at h1

/-- C6 (amended): the drain-active flag is cleared on every exit path of
the drain — including iterations whose send attempt throws and iterations
whose `'sent'` callback throws (both are caught by the `catch` block) —
provided no entry's `'failed'`-path status-callback invocation itself
throws; such a throw escapes the whole procedure and leaves the flag
set. -/
theorem drain_flag_cleared_unless_fail_callback_escapes (q : List CbEntry) :
    (∀ e ∈ q, cbFailSafe e = true) → drainLoopFlag q = (false, none) := by
  induction q with
  | nil => intro _; rfl
  | cons e rest ih =>
    intro h
    have he := h e (List.mem_cons_self e rest)
    have hrest : ∀ x ∈ rest, cbFailSafe x = true :=
      fun x hx => h x (List.mem_cons_of_mem e hx)
    have hesc : iterationEscape e = none := by
      obtain ⟨so, cb⟩ := e
      cases so with
      | ok u =>
        cases cb with
        | none => rfl
        | some p =>
          obtain ⟨c1, c2⟩ := p
          cases c1 with
          | ok => rfl
          | throwsErr m1 =>
            cases c2 with
            | ok => rfl
            | throwsErr m2 => simp [cbFailSafe] at he
      | error msg =>
        cases cb with
        | none => rfl
        | some p =>
          obtain ⟨c1, c2⟩ := p
          cases c2 with
          | ok => rfl
          | throwsErr m2 => simp [cbFailSafe] at he
    simp only [drainLoopFlag, hesc]
    exact ih hrest

/-- Entry whose send rejects but whose callback is well-behaved. -/
def entrySendBoom : CbEntry :=
  { sendOutcome := Except.error "network down"
    statusCallback := some (CbBeh.ok, CbBeh.ok) }

/-- Entry whose send resolves but whose `'sent'` callback throws (caught;
the failure path then reports cleanly). -/
def entrySentCbBoom : CbEntry :=
  { sendOutcome := Except.ok ()
    statusCallback := some (CbBeh.throwsErr "sent cb boom", CbBeh.ok) }

/-- Witness for the amended C6: a queue with a rejecting send and a
throwing `'sent'` callback still ends with the flag cleared and no
escaping exception. -/
theorem drain_flag_cleared_witness :
    drainLoopFlag [entrySendBoom, entrySentCbBoom] = (false, none) :=
  drain_flag_cleared_unless_fail_callback_escapes
    [entrySendBoom, entrySentCbBoom] (by decide)
